import Mathlib

/-!
Verification of the `handgover` struct-population library.

This file gives a shallow embedding of the two source files of the
repository, `handover.go` (the coercion engine `setValue` with its helpers
`setPointer`, `setSlice`, `setString`, `setInt`, `setUInt`, `setBool`,
`setFloat`, `setStruct`, and the population driver `Sources.To`) and
`errors.go` (the structured error type `Error` and its constructor
`newError`), together with theorems settling the specification claims.

Go's machine integers are modelled as `Nat`/`Int` with explicit range
checks mirroring `strconv`'s bit-size checks; Go standard-library parsers
(`strconv.ParseInt`, `strconv.ParseUint`, `strconv.ParseBool`,
`strconv.ParseFloat`, `time.ParseDuration`, `time.Parse` with the RFC 3339
layout, `encoding/json.Unmarshal`), which the specification treats as black
boxes, are modelled as executable Lean functions reproducing their
documented accept/reject behaviour and result values.
-/

namespace Handgover

/-- The shape of a destination field's Go type, as discriminated by the
`switch property.Kind()` in `setValue` of `handover.go`.  `tInt` and
`tUint` are the platform-width variants (`bits.UintSize`, modelled as 64).
`tDuration` is the Go kind `Int64` with static type `time.Duration`
(special-cased in `setInt`); `tTime` is the Go kind `Struct` with static
type `time.Time` (special-cased in `setStruct`); `tStruct` is any other
struct kind, and `tUnsupported` carries the kind name used in the
"unsupported property kind" error of the default branch. -/
inductive GoTy : Type where
  | tPtr (elem : GoTy)
  | tSlice (elem : GoTy)
  | tString
  | tInt
  | tInt8
  | tInt16
  | tInt32
  | tInt64
  | tDuration
  | tUint
  | tUint8
  | tUint16
  | tUint32
  | tUint64
  | tBool
  | tFloat32
  | tFloat64
  | tTime
  | tStruct
  | tUnsupported (kindName : String)
deriving DecidableEq

/-- A Go value stored in a destination field.  Signed integer kinds
(including `time.Duration`, stored via `SetInt` in nanoseconds) are `vInt`;
unsigned kinds are `vUint`; floating-point values are modelled by the exact
rational value of the parsed decimal literal (IEEE rounding is outside the
claims and abstracted away); a parsed `time.Time` and a JSON-decoded struct
are modelled by the validated source text. -/
inductive GoVal : Type where
  | vPtr (v : Option GoVal)
  | vSlice (elems : List GoVal)
  | vString (s : String)
  | vInt (n : Int)
  | vUint (n : Nat)
  | vBool (b : Bool)
  | vFloat (q : Rat)
  | vTime (s : String)
  | vStruct (s : String)
  | vUnsupported

/-- Which of the two `strconv` error values a `strconv.NumError` carries:
`ErrSyntax` (`malformed`) or `ErrRange` (`outOfRange`). -/
inductive NumErrKind : Type where
  | malformed
  | outOfRange
deriving DecidableEq

/-- The dynamic type of the underlying error, as discriminated by the type
switch in `newError` of `errors.go`: `numError` is `*strconv.NumError`
(with the function name and the offending number string `Num`),
`timeParseError` is `*time.ParseError` (with its `Value` field),
`jsonUnsupportedValue` is `*json.UnsupportedValueError` (with its `Str`
field), and `generic` is every other error, carrying only its message
(`time.ParseDuration` and `json.Unmarshal` failures, resolver errors, and
the "unsupported property kind" error all land here). -/
inductive InnerErr : Type where
  | numError (fn : String) (num : String) (kind : NumErrKind)
  | timeParseError (value : String) (msg : String)
  | jsonUnsupportedValue (s : String)
  | generic (msg : String)
deriving DecidableEq

/-- `Error` of `errors.go`: the structured error exposed to callers. -/
structure HError : Type where
  Field : String
  Source : String
  Value : String
  InnerError : InnerErr
deriving DecidableEq

/-- `newError` of `errors.go`: builds the structured error, rendering the
offending value from the typed inner error when it is one of the three
specially-handled parser error types, and otherwise from the raw value bag
(empty, the single string, or the bracket-joined list). -/
def newError (field source : String) (values : List String) (err : InnerErr) : HError :=
  let e : HError := { Field := field, Source := source, Value := "", InnerError := err }
  match err with
  | .numError _ num _ => { e with Value := num }
  | .timeParseError v _ => { e with Value := v }
  | .jsonUnsupportedValue s => { e with Value := s }
  | .generic _ =>
    match values with
    | [] => e
    | [v] => { e with Value := v }
    | _ => { e with Value := "[" ++ String.intercalate " " values ++ "]" }

/-! ### Models of the standard-library parsers -/

/-- Decimal digit test, `'0' <= c && c <= '9'`. -/
def isDigit (c : Char) : Bool := 48 ≤ c.toNat && c.toNat ≤ 57

/-- Value of a big-endian list of decimal digit characters. -/
def digitsToNat (cs : List Char) : Nat :=
  cs.foldl (fun a c => a * 10 + (c.toNat - 48)) 0

/-- Model of `strconv.ParseUint(s, 10, size)`: a nonempty all-digit string
whose value fits in `size` bits; no sign is permitted.  The accumulate-
with-cutoff overflow detection of the Go implementation is modelled
behaviourally by the final range check on the exact value. -/
def parseUintGo (s : String) (size : Nat) : Except InnerErr Nat :=
  match s.toList with
  | [] => .error (.numError "ParseUint" s .malformed)
  | c :: rest =>
    if (c :: rest).any (fun ch => !(isDigit ch)) then
      .error (.numError "ParseUint" s .malformed)
    else
      let un := digitsToNat (c :: rest)
      if 2 ^ size ≤ un then .error (.numError "ParseUint" s .outOfRange)
      else .ok un

/-- Model of `strconv.ParseInt(s, 10, size)`: an optional leading sign,
then a nonempty all-digit string; the value must lie in
`[-2^(size-1), 2^(size-1) - 1]`, otherwise `ErrRange`. -/
def parseIntGo (s : String) (size : Nat) : Except InnerErr Int :=
  match s.toList with
  | [] => .error (.numError "ParseInt" s .malformed)
  | c :: rest =>
    let neg : Bool := c = '-'
    let ds : List Char := if c = '-' ∨ c = '+' then rest else c :: rest
    if ds.isEmpty || ds.any (fun ch => !(isDigit ch)) then
      .error (.numError "ParseInt" s .malformed)
    else
      let un := digitsToNat ds
      if (!neg && decide (2 ^ (size - 1) ≤ un)) || (neg && decide (2 ^ (size - 1) < un)) then
        .error (.numError "ParseInt" s .outOfRange)
      else
        .ok (if neg then -(un : Int) else (un : Int))

/-- Model of `strconv.ParseBool`: the exact literal forms it accepts. -/
def parseBoolGo (s : String) : Except InnerErr Bool :=
  if s ∈ ["1", "t", "T", "TRUE", "true", "True"] then .ok true
  else if s ∈ ["0", "f", "F", "FALSE", "false", "False"] then .ok false
  else .error (.numError "ParseBool" s .malformed)

/-- The character of a decimal digit value. -/
def decChar (d : Nat) : Char := Char.ofNat (48 + d)

/-- Little-endian decimal digits of `n`, by repeated division; the fuel
argument (instantiated with `n` itself, which bounds the number of digits)
makes the recursion structural. -/
def natDecAux : Nat → Nat → List Nat
  | 0, _ => []
  | fuel + 1, n => if n = 0 then [] else n % 10 :: natDecAux fuel (n / 10)

/-- The characters of the base-10 rendering of a natural number. -/
def natDecChars (n : Nat) : List Char :=
  if n = 0 then ['0'] else ((natDecAux n n).map decChar).reverse

/-- Model of `strconv.FormatUint(n, 10)`: the base-10 decimal rendering of
a natural number. -/
def natDecimal (n : Nat) : String := String.mk (natDecChars n)

/-- The base-10 decimal rendering of an integer (`strconv.FormatInt`). -/
def intDecimal (n : Int) : String :=
  String.mk (if n < 0 then '-' :: natDecChars n.natAbs else natDecChars n.natAbs)

/-- Longest digit run at the front of a character list, and the rest. -/
def spanDigits (cs : List Char) : List Char × List Char :=
  (cs.takeWhile isDigit, cs.dropWhile isDigit)

/-- Mantissa of a decimal floating literal: `digits [. digits*]` or
`. digits+`, valued exactly as a rational. -/
def floatMantissa (cs : List Char) : Option (Rat × List Char) :=
  let (ip, r1) := spanDigits cs
  match r1 with
  | '.' :: r2 =>
    let (fp, r3) := spanDigits r2
    if ip.isEmpty && fp.isEmpty then none
    else some ((digitsToNat ip : Rat) + (digitsToNat fp : Rat) / ((10 : Rat) ^ fp.length), r3)
  | _ => if ip.isEmpty then none else some ((digitsToNat ip : Rat), r1)

/-- Optional exponent part `[eE][+-]?digits+` (must consume the rest). -/
def floatExponent (cs : List Char) : Option Int :=
  match cs with
  | [] => some 0
  | e :: r =>
    if e = 'e' || e = 'E' then
      let (sgn, r2) : Int × List Char :=
        match r with
        | '-' :: rr => (-1, rr)
        | '+' :: rr => (1, rr)
        | _ => (1, r)
      let (ds, r3) := spanDigits r2
      if ds.isEmpty || !r3.isEmpty then none else some (sgn * (digitsToNat ds : Int))
    else none

/-- Model of `strconv.ParseFloat(s, size)` on decimal literals: an optional
sign, a decimal mantissa, and an optional exponent.  The result is the
exact rational value of the literal (IEEE rounding, the `Inf`/`NaN`
keywords, hexadecimal mantissas and digit-separating underscores play no
role in any claim and are outside the model; the same syntax is accepted
for both bit sizes, which only affect rounding in Go). -/
def parseFloatGo (s : String) (size : Nat) : Except InnerErr Rat :=
  let core : Option Rat :=
    let (neg, cs) : Bool × List Char :=
      match s.toList with
      | '-' :: r => (true, r)
      | '+' :: r => (false, r)
      | cs => (false, cs)
    match floatMantissa cs with
    | none => none
    | some (m, rest) =>
      match floatExponent rest with
      | none => none
      | some e =>
        let q := m * (10 : Rat) ^ e
        some (if neg then -q else q)
  match size, core with
  | _, some q => .ok q
  | _, none => .error (.numError "ParseFloat" s .malformed)

/-- Go's `%q` rendering of a plain string (escaping of exotic characters
does not arise in any claim). -/
def goQuote (s : String) : String := "\"" ++ s ++ "\""

/-- The unit table of `time.ParseDuration`, in nanoseconds per unit. -/
def unitMap : List (String × Int) :=
  [("ns", 1), ("us", 1000), ("µs", 1000), ("μs", 1000), ("ms", 1000000),
   ("s", 1000000000), ("m", 60000000000), ("h", 3600000000000)]

/-- One pass of the component loop of `time.ParseDuration`: repeatedly
consume `digits [. digits*] unit` and sum the contributions.  `orig` is the
full input, quoted in error messages exactly as Go does.  The recursion is
fuelled; each iteration consumes at least the one-or-more unit characters,
so fuel `cs.length + 1` (as passed by `parseDurationGo`) never runs out.
The fractional contribution `int64(float64(f) * (unit/scale))` is modelled
by the exact truncated integer `f * unit / scale`; the `int64` overflow
checks play no role in any claim and are not modelled. -/
def durLoop (orig : String) : Nat → List Char → Except InnerErr Int
  | 0, _ => .error (.generic ("time: invalid duration " ++ goQuote orig))
  | _, [] => .ok 0
  | fuel + 1, c :: cs =>
    if !(isDigit c || c = '.') then
      .error (.generic ("time: invalid duration " ++ goQuote orig))
    else
      let (ip, r1) := spanDigits (c :: cs)
      let (hasDot, fp, r2) : Bool × List Char × List Char :=
        match r1 with
        | '.' :: rr => (true, (spanDigits rr).1, (spanDigits rr).2)
        | _ => (false, [], r1)
      if ip.isEmpty && (fp.isEmpty || !hasDot) then
        .error (.generic ("time: invalid duration " ++ goQuote orig))
      else
        let us := r2.takeWhile (fun ch => !(isDigit ch || ch = '.'))
        let r3 := r2.dropWhile (fun ch => !(isDigit ch || ch = '.'))
        if us.isEmpty then
          .error (.generic ("time: missing unit in duration " ++ goQuote orig))
        else
          match unitMap.lookup (String.mk us) with
          | none =>
            .error (.generic ("time: unknown unit " ++ goQuote (String.mk us) ++
              " in duration " ++ goQuote orig))
          | some unit =>
            let v : Int := (digitsToNat ip : Int) * unit +
              (if hasDot then ((digitsToNat fp : Int) * unit) / ((10 : Int) ^ fp.length) else 0)
            (durLoop orig fuel r3).map (fun d => v + d)

/-- Model of `time.ParseDuration`: optional sign, the literal `"0"`, or a
nonempty sequence of number-unit components. -/
def parseDurationGo (s : String) : Except InnerErr Int :=
  let (neg, cs) : Bool × List Char :=
    match s.toList with
    | '-' :: r => (true, r)
    | '+' :: r => (false, r)
    | cs => (false, cs)
  if cs = ['0'] then .ok 0
  else if cs.isEmpty then .error (.generic ("time: invalid duration " ++ goQuote s))
  else (durLoop s (cs.length + 1) cs).map (fun d => if neg then -d else d)

/-- Two decimal digits and their value. -/
def digit2 : List Char → Option (Nat × List Char)
  | a :: b :: r =>
    if isDigit a && isDigit b then some ((a.toNat - 48) * 10 + (b.toNat - 48), r) else none
  | _ => none

/-- Gregorian leap-year rule. -/
def isLeap (y : Nat) : Bool := (y % 4 == 0 && y % 100 != 0) || y % 400 == 0

/-- Days in a month of a given year. -/
def daysInMonth (y m : Nat) : Nat :=
  if m = 2 then (if isLeap y then 29 else 28)
  else if m = 4 ∨ m = 6 ∨ m = 9 ∨ m = 11 then 30 else 31

/-- Offset tail of an RFC 3339 timestamp: `Z` or `±HH:MM`, ending the
input. -/
def rfc3339Offset : List Char → Bool
  | ['Z'] => true
  | c :: r =>
    (c = '+' || c = '-') &&
      (match digit2 r with
       | some (zh, ':' :: r2) =>
         (match digit2 r2 with
          | some (zm, []) => zh ≤ 23 && zm ≤ 59
          | _ => false)
       | _ => false)
  | _ => false

/-- Model of `time.Parse(time.RFC3339, s)` as a validity check:
`YYYY-MM-DDTHH:MM:SS`, an optional fractional-seconds part, then `Z` or a
numeric offset, with in-range components. -/
def validRFC3339 (s : String) : Bool :=
  match s.toList with
  | y1 :: y2 :: y3 :: y4 :: '-' :: r1 =>
    [y1, y2, y3, y4].all isDigit &&
      (let y := digitsToNat [y1, y2, y3, y4]
       match digit2 r1 with
       | some (mo, '-' :: r2) =>
         (1 ≤ mo && mo ≤ 12) &&
           (match digit2 r2 with
            | some (d, 'T' :: r3) =>
              (1 ≤ d && d ≤ daysInMonth y mo) &&
                (match digit2 r3 with
                 | some (h, ':' :: r4) =>
                   h ≤ 23 &&
                     (match digit2 r4 with
                      | some (mi, ':' :: r5) =>
                        mi ≤ 59 &&
                          (match digit2 r5 with
                           | some (se, r6) =>
                             se ≤ 59 &&
                               (match r6 with
                                | '.' :: r7 =>
                                  !(r7.takeWhile isDigit).isEmpty &&
                                    rfc3339Offset (r7.dropWhile isDigit)
                                | _ => rfc3339Offset r6)
                           | none => false)
                      | _ => false)
                 | _ => false)
            | _ => false)
       | _ => false)
  | _ => false

/-- Model of `time.Parse(time.RFC3339, s)`: failures are `*time.ParseError`
values whose `Value` field is the full input string; the parsed instant is
abstracted by the validated text. -/
def parseRFC3339Go (s : String) : Except InnerErr String :=
  if validRFC3339 s then .ok s
  else .error (.timeParseError s "cannot parse as RFC3339")

/-- JSON insignificant whitespace. -/
def jsonWs (c : Char) : Bool := c = ' ' || c = '\t' || c = '\n' || c = '\r'

/-- The opening and closing curly-bracket characters of JSON objects. -/
def lcurly : Char := Char.ofNat 123

/-- See `lcurly`. -/
def rcurly : Char := Char.ofNat 125

/-- Rest of the input after a JSON string whose opening quote has been
consumed; a backslash skips the next character (the details of escape
validation play no role in any claim). -/
def jsonStringRest : List Char → Option (List Char)
  | [] => none
  | '"' :: r => some r
  | '\\' :: _ :: r => jsonStringRest r
  | _ :: r => jsonStringRest r

/-- A literal keyword (`true`, `false`, `null`) tail. -/
def jsonLit (lit : List Char) (cs : List Char) : Option (List Char) :=
  if cs.take lit.length = lit then some (cs.drop lit.length) else none

/-- A JSON number: optional minus, `0` or a nonzero-led digit run, optional
fraction, optional exponent. -/
def jsonNumber (cs : List Char) : Option (List Char) :=
  let cs1 := match cs with
    | '-' :: r => r
    | _ => cs
  let intPart : Option (List Char) :=
    match cs1 with
    | '0' :: r => some r
    | c :: r => if isDigit c then some (r.dropWhile isDigit) else none
    | [] => none
  match intPart with
  | none => none
  | some r1 =>
    let r2 : Option (List Char) :=
      match r1 with
      | '.' :: rr =>
        let (ds, rest) := spanDigits rr
        if ds.isEmpty then none else some rest
      | _ => some r1
    match r2 with
    | none => none
    | some r2 =>
      match r2 with
      | e :: rr =>
        if e = 'e' || e = 'E' then
          let rr2 := match rr with
            | s :: rrr => if s = '+' || s = '-' then rrr else rr
            | [] => rr
          let (ds, rest) := spanDigits rr2
          if ds.isEmpty then none else some rest
        else some (e :: rr)
      | [] => some []

/-- Members of a JSON object after the opening curly bracket, given a
parser `pv` for one value.  `allowClose` is true before the first member,
where an immediately closing bracket (the empty object) is legal. -/
def jsonObjBody (pv : List Char → Option (List Char)) :
    Nat → Bool → List Char → Option (List Char)
  | 0, _, _ => none
  | fuel + 1, allowClose, cs =>
    match cs.dropWhile jsonWs with
    | [] => none
    | c :: r =>
      if allowClose && c = rcurly then some r
      else if c = '"' then
        match jsonStringRest r with
        | none => none
        | some r2 =>
          match r2.dropWhile jsonWs with
          | ':' :: r3 =>
            match pv r3 with
            | none => none
            | some r4 =>
              match r4.dropWhile jsonWs with
              | ',' :: r5 => jsonObjBody pv fuel false r5
              | c2 :: r5 => if c2 = rcurly then some r5 else none
              | [] => none
          | _ => none
      else none

/-- Elements of a JSON array after the opening square bracket. -/
def jsonArrBody (pv : List Char → Option (List Char)) :
    Nat → Bool → List Char → Option (List Char)
  | 0, _, _ => none
  | fuel + 1, allowClose, cs =>
    match cs.dropWhile jsonWs with
    | ']' :: r => if allowClose then some r else none
    | _ =>
      match pv cs with
      | none => none
      | some r =>
        match r.dropWhile jsonWs with
        | ',' :: r2 => jsonArrBody pv fuel false r2
        | ']' :: r2 => some r2
        | _ => none

/-- One JSON value, fuelled; every fuel decrement accompanies at least one
consumed input character, so the fuel `s.length + 1` passed by
`jsonUnmarshalGo` never runs out. -/
def jsonValue : Nat → List Char → Option (List Char)
  | 0, _ => none
  | fuel + 1, cs =>
    match cs.dropWhile jsonWs with
    | [] => none
    | c :: r =>
      if c = '"' then jsonStringRest r
      else if c = lcurly then jsonObjBody (jsonValue fuel) fuel true r
      else if c = '[' then jsonArrBody (jsonValue fuel) fuel true r
      else if c = 't' then jsonLit ['r', 'u', 'e'] r
      else if c = 'f' then jsonLit ['a', 'l', 's', 'e'] r
      else if c = 'n' then jsonLit ['u', 'l', 'l'] r
      else jsonNumber (c :: r)

/-- Model of `encoding/json.Unmarshal` into a fresh struct value: a
syntactic check that the input is one complete JSON value (failures are
`*json.SyntaxError` values, which `newError` treats generically; per-field
decoding and `*json.UnmarshalTypeError` mismatches play no role in any
claim and are abstracted, the decoded struct being represented by its
source text). -/
def jsonUnmarshalGo (s : String) : Except InnerErr String :=
  match jsonValue (s.length + 1) s.toList with
  | some rest =>
    if (rest.dropWhile jsonWs).isEmpty then .ok s
    else .error (.generic "invalid character after top-level value")
  | none => .error (.generic "unexpected end of JSON input")

/-! ### The coercion engine (`handover.go`) -/

/-- The zero Go value of each type: what `reflect.New` and
`reflect.MakeSlice` produce before any assignment. -/
def zeroVal : GoTy → GoVal
  | .tPtr _ => .vPtr none
  | .tSlice _ => .vSlice []
  | .tString => .vString ""
  | .tInt | .tInt8 | .tInt16 | .tInt32 | .tInt64 | .tDuration => .vInt 0
  | .tUint | .tUint8 | .tUint16 | .tUint32 | .tUint64 => .vUint 0
  | .tBool => .vBool false
  | .tFloat32 | .tFloat64 => .vFloat 0
  | .tTime => .vTime "0001-01-01T00:00:00Z"
  | .tStruct => .vStruct ""
  | .tUnsupported _ => .vUnsupported

/-- `setString` of `handover.go`: assigns the first value verbatim. -/
def setString (v0 : String) : Except (InnerErr × GoVal) GoVal :=
  .ok (.vString v0)

/-- `setInt` of `handover.go`: if the property's static type is
`time.Duration`, parse the first value as a duration literal, else as a
base-10 signed integer of the given bit size; on failure the property is
left unmodified (`old`). -/
def setInt (ty : GoTy) (old : GoVal) (v0 : String) (size : Nat) :
    Except (InnerErr × GoVal) GoVal :=
  match ty with
  | .tDuration =>
    match parseDurationGo v0 with
    | .error e => .error (e, old)
    | .ok d => .ok (.vInt d)
  | _ =>
    match parseIntGo v0 size with
    | .error e => .error (e, old)
    | .ok v => .ok (.vInt v)

/-- `setUInt` of `handover.go`. -/
def setUInt (old : GoVal) (v0 : String) (size : Nat) :
    Except (InnerErr × GoVal) GoVal :=
  match parseUintGo v0 size with
  | .error e => .error (e, old)
  | .ok ui => .ok (.vUint ui)

/-- `setBool` of `handover.go`. -/
def setBool (old : GoVal) (v0 : String) : Except (InnerErr × GoVal) GoVal :=
  match parseBoolGo v0 with
  | .error e => .error (e, old)
  | .ok b => .ok (.vBool b)

/-- `setFloat` of `handover.go`. -/
def setFloat (old : GoVal) (v0 : String) (size : Nat) :
    Except (InnerErr × GoVal) GoVal :=
  match parseFloatGo v0 size with
  | .error e => .error (e, old)
  | .ok f => .ok (.vFloat f)

/-- `setStruct` of `handover.go`: a `time.Time` property parses the first
value as RFC 3339; any other struct property JSON-decodes it into a fresh
value, assigned only on success. -/
def setStruct (ty : GoTy) (old : GoVal) (v0 : String) :
    Except (InnerErr × GoVal) GoVal :=
  match ty with
  | .tTime =>
    match parseRFC3339Go v0 with
    | .error e => .error (e, old)
    | .ok t => .ok (.vTime t)
  | _ =>
    match jsonUnmarshalGo v0 with
    | .error e => .error (e, old)
    | .ok j => .ok (.vStruct j)

/-- The element loop of `setSlice`: each slot of the freshly made slice
starts at the element type's zero value and is set from its one string via
the element setter; the first failure aborts (the enclosing property is
then left unmodified, since `property.Set(slice)` runs only after the
loop). -/
def setSliceElems (setElem : String → Except (InnerErr × GoVal) GoVal) :
    List String → Except InnerErr (List GoVal)
  | [] => .ok []
  | v :: vs =>
    match setElem v with
    | .error (e, _) => .error e
    | .ok x => (setSliceElems setElem vs).map (fun xs => x :: xs)

/-- The first byte of the UTF-8 encoding of a character: `[]byte(c)[0]`
for the one-rune string `c` produced by `strings.Split(values[0], "")`. -/
def utf8FirstByte (c : Char) : Nat :=
  if c.toNat < 128 then c.toNat
  else if c.toNat < 2048 then 192 ||| (c.toNat >>> 6)
  else if c.toNat < 65536 then 224 ||| (c.toNat >>> 12)
  else 240 ||| (c.toNat >>> 18)

/-- `setValue` of `handover.go`: dispatch on the destination kind.  The
driver only ever calls it with a nonempty value bag, modelled by the split
arguments `v0 :: rest`.  The bodies of the mutually recursive helpers
`setPointer` (allocate a fresh pointee, then recursively coerce into it —
note the property is overwritten before the recursive call) and `setSlice`
(the byte-element special case re-encodes the characters of the FIRST
value via `strconv.FormatUint`, modelled by `natDecimal`; otherwise one
element per value) are inlined in their cases.  Errors carry the value the
property holds after the failed call. -/
def setValue : GoTy → GoVal → String → List String → Except (InnerErr × GoVal) GoVal
  | .tPtr elem, _, v0, rest =>
    match setValue elem (zeroVal elem) v0 rest with
    | .error (e, pv) => .error (e, .vPtr (some pv))
    | .ok x => .ok (.vPtr (some x))
  | .tSlice elem, old, v0, rest =>
    let values : List String :=
      match elem with
      | .tUint8 => v0.toList.map (fun c => natDecimal (utf8FirstByte c))
      | _ => v0 :: rest
    match setSliceElems (fun v => setValue elem (zeroVal elem) v []) values with
    | .error e => .error (e, old)
    | .ok xs => .ok (.vSlice xs)
  | .tString, _, v0, _ => setString v0
  | .tInt, old, v0, _ => setInt .tInt old v0 64
  | .tInt8, old, v0, _ => setInt .tInt8 old v0 8
  | .tInt16, old, v0, _ => setInt .tInt16 old v0 16
  | .tInt32, old, v0, _ => setInt .tInt32 old v0 32
  | .tInt64, old, v0, _ => setInt .tInt64 old v0 64
  | .tDuration, old, v0, _ => setInt .tDuration old v0 64
  | .tUint, old, v0, _ => setUInt old v0 64
  | .tUint8, old, v0, _ => setUInt old v0 8
  | .tUint16, old, v0, _ => setUInt old v0 16
  | .tUint32, old, v0, _ => setUInt old v0 32
  | .tUint64, old, v0, _ => setUInt old v0 64
  | .tBool, old, v0, _ => setBool old v0
  | .tFloat32, old, v0, _ => setFloat old v0 32
  | .tFloat64, old, v0, _ => setFloat old v0 64
  | .tTime, old, v0, _ => setStruct .tTime old v0
  | .tStruct, old, v0, _ => setStruct .tStruct old v0
  | .tUnsupported kindName, old, _, _ =>
    .error (.generic ("unsupported property kind " ++ goQuote kindName), old)

/-! ### The population driver (`handover.go`) -/

/-- `Source` of `handover.go`: a tag name plus a resolver.  A Go resolver
returns `(Valuer, error)` where either component may be absent; the
`Valuer` is modelled by its underlying `values()` string list (`Value`
wraps a list, a nil `Valuer` is `none`) and the error by an optional
`InnerErr`. -/
structure Source : Type where
  Tag : String
  Get : String → Option (List String) × Option InnerErr

/-- `Sources` of `handover.go`. -/
abbrev Sources : Type := List Source

/-- `From` of `handover.go`. -/
def From (sources : List Source) : Sources := sources

/-- `Value` of `handover.go`: wraps raw strings into a (non-nil)
`Valuer`. -/
def Value (v : List String) : Option (List String) := some v

/-- One field of a destination record: its struct-tag key/value pairs, the
`CanSet` flag (false for unexported fields), its type and current value.
`reflect.StructField` supplies the first two, `reflect.Value` the rest. -/
structure StructField : Type where
  tags : List (String × String)
  canSet : Bool
  ty : GoTy
  val : GoVal

/-- A destination record: its fields in declaration order. -/
abbrev Obj : Type := List StructField

/-- `StructTag.Lookup`: the value of the first tag with the given key. -/
def lookupTag (tags : List (String × String)) (key : String) : Option String :=
  (tags.find? (fun p => p.1 = key)).map (fun p => p.2)

/-- The body of the inner source loop of `Sources.To`, for one
field/source combination: skip when the tag is absent or the field is not
settable; resolve; on resolver error build the structured error; skip when
no values were produced; otherwise coerce, threading the field's value.
An error carries the field as the destination holds it afterwards. -/
def attempt (source : Source) (f : StructField) :
    Except (HError × StructField) StructField :=
  match lookupTag f.tags source.Tag with
  | none => .ok f
  | some tagValue =>
    if !f.canSet then .ok f
    else
      let (v, errOpt) := source.Get tagValue
      let values := v.getD []
      match errOpt with
      | some err => .error (newError tagValue source.Tag values err, f)
      | none =>
        match values with
        | [] => .ok f
        | v0 :: rest =>
          match setValue f.ty f.val v0 rest with
          | .error (ie, fv) =>
            .error (newError tagValue source.Tag values ie, { f with val := fv })
          | .ok nv => .ok { f with val := nv }

/-- The inner loop of `Sources.To`: the given sources are attempted on one
field in declaration order, stopping at the first error. -/
def fillField (f : StructField) : List Source → Except (HError × StructField) StructField
  | [] => .ok f
  | source :: rest =>
    match attempt source f with
    | .error p => .error p
    | .ok f' => fillField f' rest

/-- The outer loop of `Sources.To`: fields in declaration order, stopping
at the first error; an error carries the whole record as the destination
holds it afterwards (earlier fields keep their written values, later
fields are untouched). -/
def fillFields (sources : List Source) : List StructField → Except (HError × List StructField) (List StructField)
  | [] => .ok []
  | f :: fs =>
    match fillField f sources with
    | .error (e, f') => .error (e, f' :: fs)
    | .ok f' =>
      match fillFields sources fs with
      | .error (e, fs') => .error (e, f' :: fs')
      | .ok fs' => .ok (f' :: fs')

/-- The error returned by `Sources.To`: either the plain
`errors.New("given struct to fill is nil")` value of the nil-destination
check, or a structured `Error`. -/
inductive ToErr : Type where
  | plainErr (msg : String)
  | fieldErr (e : HError)

/-- `Sources.To` of `handover.go`.  A nil destination (`none`) is rejected
first; an empty source list then succeeds immediately; otherwise the
fields are populated in place.  Go mutates the destination through the
passed reference and returns only the error; the model returns the error
alongside the destination's final state.  (The pointer-indirection
unwrapping loop of the source is implicit: `Obj` is the pointed-to record
itself.) -/
def Sources.To (sources : Sources) (obj : Option Obj) : Option ToErr × Option Obj :=
  match obj with
  | none => (some (.plainErr "given struct to fill is nil"), none)
  | some fields =>
    if sources.length = 0 then (none, some fields)
    else
      match fillFields sources fields with
      | .error (e, fields') => (some (.fieldErr e), some fields')
      | .ok fields' => (none, some fields')

/-! ### Claim-side definitions -/

/-- The scalar destination kinds of claim C3: signed and unsigned integers
of every supported width, boolean, floating point, and duration. -/
def isScalar : GoTy → Bool
  | .tInt | .tInt8 | .tInt16 | .tInt32 | .tInt64 | .tDuration
  | .tUint | .tUint8 | .tUint16 | .tUint32 | .tUint64
  | .tBool | .tFloat32 | .tFloat64 => true
  | _ => false

/-- Whether the parser a scalar kind dispatches to accepts the string
(true for non-scalar kinds, where it is unused). -/
def scalarParseOk (ty : GoTy) (s : String) : Bool :=
  match ty with
  | .tInt => (parseIntGo s 64).isOk
  | .tInt8 => (parseIntGo s 8).isOk
  | .tInt16 => (parseIntGo s 16).isOk
  | .tInt32 => (parseIntGo s 32).isOk
  | .tInt64 => (parseIntGo s 64).isOk
  | .tDuration => (parseDurationGo s).isOk
  | .tUint => (parseUintGo s 64).isOk
  | .tUint8 => (parseUintGo s 8).isOk
  | .tUint16 => (parseUintGo s 16).isOk
  | .tUint32 => (parseUintGo s 32).isOk
  | .tUint64 => (parseUintGo s 64).isOk
  | .tBool => (parseBoolGo s).isOk
  | .tFloat32 => (parseFloatGo s 32).isOk
  | .tFloat64 => (parseFloatGo s 64).isOk
  | _ => true

/-- One byte value per character of the string: the result claim C2's
byte-sequence special case produces. -/
def byteElems (s : String) : List GoVal :=
  s.toList.map (fun c => .vUint (utf8FirstByte c))

/-- The bit width of a signed integer destination kind (the platform
variant is 64-bit), `none` elsewhere; for claim C6. -/
def signedWidth : GoTy → Option Nat
  | .tInt => some 64
  | .tInt8 => some 8
  | .tInt16 => some 16
  | .tInt32 => some 32
  | .tInt64 => some 64
  | _ => none

/-- The bit width of an unsigned integer destination kind; for claim C6. -/
def unsignedWidth : GoTy → Option Nat
  | .tUint => some 64
  | .tUint8 => some 8
  | .tUint16 => some 16
  | .tUint32 => some 32
  | .tUint64 => some 64
  | _ => none

/-- The rendered-value rule of the amended claim C9: the specially-typed
parser errors contribute their own offending text; otherwise the raw value
bag is rendered as empty, the single string, or the bracket-joined list. -/
def renderedValueSpec (values : List String) (err : InnerErr) : String :=
  match err with
  | .numError _ num _ => num
  | .timeParseError v _ => v
  | .jsonUnsupportedValue s => s
  | .generic _ =>
    match values with
    | [] => ""
    | [v] => v
    | _ => "[" ++ String.intercalate " " values ++ "]"

/-! ### Helper lemmas -/

theorem Except.exists_error_of_isOk_eq_false {ε α : Type} {x : Except ε α}
    (h : x.isOk = false) : ∃ e, x = .error e := by
  cases x with
  | error e => exact ⟨e, rfl⟩
  | ok v => simp [Except.isOk, Except.toBool] at h

theorem decChar_toNat {d : Nat} (h : d < 10) : (decChar d).toNat = 48 + d := by
  interval_cases d <;> decide

theorem isDigit_decChar {d : Nat} (h : d < 10) : isDigit (decChar d) = true := by
  interval_cases d <;> decide

theorem isDigit_ne_sign {c : Char} (h : isDigit c = true) : c ≠ '-' ∧ c ≠ '+' := by
  constructor <;> rintro rfl <;> simp [isDigit] at h

theorem digitsToNat_append (A : List Char) (c : Char) :
    digitsToNat (A ++ [c]) = digitsToNat A * 10 + (c.toNat - 48) := by
  simp [digitsToNat, List.foldl_append]

theorem natDecAux_spec :
    ∀ (fuel n : Nat), n ≤ fuel →
      digitsToNat (((natDecAux fuel n).map decChar).reverse) = n ∧
      ∀ c ∈ ((natDecAux fuel n).map decChar).reverse, isDigit c = true := by
  intro fuel
  induction fuel with
  | zero =>
    intro n hn
    interval_cases n
    simp [natDecAux, digitsToNat]
  | succ fuel ih =>
    intro n hn
    by_cases h0 : n = 0
    · subst h0; simp [natDecAux, digitsToNat]
    · have hdiv : n / 10 ≤ fuel := by omega
      obtain ⟨ih1, ih2⟩ := ih (n / 10) hdiv
      constructor
      · simp only [natDecAux, h0, if_false, List.map_cons, List.reverse_cons]
        rw [digitsToNat_append, ih1, decChar_toNat (Nat.mod_lt n (by omega))]
        omega
      · simp only [natDecAux, h0, if_false, List.map_cons, List.reverse_cons]
        intro c hc
        rcases List.mem_append.mp hc with hmem | hmem
        · exact ih2 c hmem
        · rcases List.mem_singleton.mp hmem with rfl
          exact isDigit_decChar (Nat.mod_lt n (by omega))

theorem natDecChars_digitsToNat (n : Nat) : digitsToNat (natDecChars n) = n := by
  by_cases h0 : n = 0
  · subst h0; decide
  · simpa [natDecChars, h0] using (natDecAux_spec n n le_rfl).1

theorem natDecChars_isDigit (n : Nat) : ∀ c ∈ natDecChars n, isDigit c = true := by
  by_cases h0 : n = 0
  · subst h0; decide
  · simpa [natDecChars, h0] using (natDecAux_spec n n le_rfl).2

theorem natDecChars_ne_nil (n : Nat) : natDecChars n ≠ [] := by
  by_cases h0 : n = 0
  · subst h0; decide
  · have h1 : 0 < n := by omega
    obtain ⟨fuel, rfl⟩ : ∃ f, n = f + 1 := ⟨n - 1, by omega⟩
    simp [natDecChars, natDecAux, h0]

theorem parseUintGo_natDecimal {m w : Nat} (h : m < 2 ^ w) :
    parseUintGo (natDecimal m) w = .ok m := by
  have htl : (natDecimal m).toList = natDecChars m := rfl
  rcases hcs : natDecChars m with _ | ⟨c, rest⟩
  · exact absurd hcs (natDecChars_ne_nil m)
  · have hall : ((c :: rest).any fun ch => !(isDigit ch)) = false := by
      rw [List.any_eq_false]
      intro x hx
      simp [natDecChars_isDigit m x (hcs ▸ hx)]
    have hval : digitsToNat (c :: rest) = m := hcs ▸ natDecChars_digitsToNat m
    simp only [parseUintGo, htl, hcs, hall, Bool.false_eq_true, if_false, hval]
    rw [if_neg (by omega)]

theorem parseIntGo_intDecimal {n : Int} {w : Nat}
    (hlo : -(2 ^ (w - 1) : Int) ≤ n) (hhi : n < 2 ^ (w - 1)) :
    parseIntGo (intDecimal n) w = .ok n := by
  rcases hcs : natDecChars n.natAbs with _ | ⟨c, rest⟩
  · exact absurd hcs (natDecChars_ne_nil n.natAbs)
  have hdig : ∀ x ∈ c :: rest, isDigit x = true := fun x hx =>
    natDecChars_isDigit n.natAbs x (hcs ▸ hx)
  have hall : ((c :: rest).any fun ch => !(isDigit ch)) = false := by
    rw [List.any_eq_false]
    intro x hx
    simp [hdig x hx]
  have hval : digitsToNat (c :: rest) = n.natAbs := hcs ▸ natDecChars_digitsToNat n.natAbs
  have hcast : ((2 : Int) ^ (w - 1)) = ((2 ^ (w - 1) : Nat) : Int) := by push_cast; ring
  by_cases hneg : n < 0
  · have htl : (intDecimal n).toList = '-' :: c :: rest := by
      simp [intDecimal, hneg, hcs]
    have hle : n.natAbs ≤ 2 ^ (w - 1) := by
      rw [hcast] at hlo; omega
    simp only [parseIntGo, htl]
    simp [hall, hval]
    have hcond : ¬ (2 ^ (w - 1) < n.natAbs) := by omega
    rw [if_neg hcond]
    simp only [Except.ok.injEq, Int.abs_eq_natAbs]
    omega
  · have htl : (intDecimal n).toList = c :: rest := by
      simp [intDecimal, hneg, hcs]
    have hlt : n.natAbs < 2 ^ (w - 1) := by
      rw [hcast] at hhi; omega
    obtain ⟨hnm, hnp⟩ := isDigit_ne_sign (hdig c (by simp))
    simp only [parseIntGo, htl]
    simp [hall, hval, hnm, hnp]
    have hcond : ¬ (2 ^ (w - 1) ≤ n.natAbs) := by omega
    rw [if_neg hcond]
    simp only [Except.ok.injEq, Int.abs_eq_natAbs]
    omega

theorem utf8FirstByte_lt (c : Char) : utf8FirstByte c < 256 := by
  have hv : c.toNat < 1114112 := by
    rcases c.valid with h | ⟨_, h⟩ <;> (simp only [Char.toNat] at h ⊢) <;> omega
  unfold utf8FirstByte
  split
  · omega
  · split
    · exact Nat.or_lt_two_pow (n := 8) (by omega) (by omega)
    · split
      · exact Nat.or_lt_two_pow (n := 8) (by omega) (by omega)
      · exact Nat.or_lt_two_pow (n := 8) (by omega) (by omega)

theorem setSliceElems_bytes (cs : List Char) :
    setSliceElems (fun v => setValue .tUint8 (zeroVal .tUint8) v [])
      (cs.map (fun c => natDecimal (utf8FirstByte c))) =
      .ok (cs.map (fun c => .vUint (utf8FirstByte c))) := by
  induction cs with
  | nil => rfl
  | cons c cs ih =>
    have hparse : parseUintGo (natDecimal (utf8FirstByte c)) 8 = .ok (utf8FirstByte c) :=
      parseUintGo_natDecimal (by simpa using utf8FirstByte_lt c)
    have hhead : setValue .tUint8 (zeroVal .tUint8) (natDecimal (utf8FirstByte c)) [] =
        .ok (.vUint (utf8FirstByte c)) := by
      simp [setValue, zeroVal, setUInt, hparse]
    rw [List.map_cons, setSliceElems, hhead, ih]
    rfl

theorem setSliceElems_ok_iff (elem : GoTy) :
    ∀ (vals : List String) (xs : List GoVal),
      setSliceElems (fun v => setValue elem (zeroVal elem) v []) vals = .ok xs ↔
        List.Forall₂ (fun s x => setValue elem (zeroVal elem) s [] = .ok x) vals xs := by
  intro vals
  induction vals with
  | nil =>
    intro xs
    constructor
    · intro h
      cases h
      exact List.Forall₂.nil
    · intro h
      cases h
      rfl
  | cons v vs ih =>
    intro xs
    constructor
    · intro h
      rcases hv : setValue elem (zeroVal elem) v [] with _ | y
      · rw [setSliceElems, hv] at h
        cases h
      · rw [setSliceElems, hv] at h
        rcases htl : setSliceElems (fun v => setValue elem (zeroVal elem) v []) vs with _ | tl
        · rw [htl] at h; cases h
        · rw [htl] at h
          cases h
          exact List.Forall₂.cons hv ((ih tl).mp htl)
    · intro h
      cases h with
      | cons hv htl =>
        rw [setSliceElems, hv, (ih _).mpr htl]
        rfl

theorem fillField_error_decomp {srcs : List Source} {f : StructField} {e : HError}
    {f' : StructField} (h : fillField f srcs = .error (e, f')) :
    ∃ spre s spost fmid,
      srcs = spre ++ s :: spost ∧
      fillField f spre = .ok fmid ∧
      attempt s fmid = .error (e, f') := by
  induction srcs generalizing f with
  | nil => cases h
  | cons s rest ih =>
    rw [fillField] at h
    cases ha : attempt s f with
    | error p =>
      obtain ⟨e1, f1⟩ := p
      rw [ha] at h
      cases h
      exact ⟨[], s, rest, f, rfl, rfl, ha⟩
    | ok f1 =>
      rw [ha] at h
      obtain ⟨spre, s', spost, fmid, h1, h2, h3⟩ := ih h
      refine ⟨s :: spre, s', spost, fmid, by rw [h1, List.cons_append], ?_, h3⟩
      rw [fillField, ha]
      exact h2

theorem fillFields_error_decomp {sources : List Source} :
    ∀ {fs : List StructField} {e : HError} {fs' : List StructField},
      fillFields sources fs = .error (e, fs') →
      ∃ pre f post pre' f',
        fs = pre ++ f :: post ∧
        fillFields sources pre = .ok pre' ∧
        fillField f sources = .error (e, f') ∧
        fs' = pre' ++ f' :: post := by
  intro fs
  induction fs with
  | nil => intro e fs' h; cases h
  | cons f rest ih =>
    intro e fs' h
    rw [fillFields] at h
    cases hf : fillField f sources with
    | error p =>
      obtain ⟨e1, f1⟩ := p
      rw [hf] at h
      cases h
      exact ⟨[], f, rest, [], f1, rfl, rfl, hf, rfl⟩
    | ok f1 =>
      rw [hf] at h
      cases hrest : fillFields sources rest with
      | error q =>
        obtain ⟨e2, fs2⟩ := q
        rw [hrest] at h
        cases h
        obtain ⟨pre, f2, post, pre', f2', hsplit, hpre, hfail, hout⟩ := ih hrest
        refine ⟨f :: pre, f2, post, f1 :: pre', f2', by rw [hsplit, List.cons_append], ?_, hfail,
          by rw [hout, List.cons_append]⟩
        rw [fillFields, hf, hpre]
      | ok fs1 =>
        rw [hrest] at h
        cases h

/-! ### Claim theorems -/

/-- C4: for every non-null destination record, populating from an empty
source list succeeds and leaves every field unchanged. -/
theorem To_empty_sources_noop (obj : Obj) :
    Sources.To [] (some obj) = (none, some obj) := rfl

/-- C5: for every non-empty source list, populating a null destination
returns the invalid-destination error (no crash), with no field
processing. -/
theorem To_nil_destination_error (sources : Sources) (hne : sources ≠ []) :
    Sources.To sources none = (some (.plainErr "given struct to fill is nil"), none) := rfl

/-- Witness for C5 at a concrete non-empty source list. -/
theorem To_nil_destination_error_witness :
    Sources.To [⟨"foo", fun _ => (Value ["x"], none)⟩] none =
      (some (.plainErr "given struct to fill is nil"), none) :=
  To_nil_destination_error [⟨"foo", fun _ => (Value ["x"], none)⟩] (by simp)

/-- C10: with an empty source list AND a null destination, the
null-destination check takes precedence over the empty-source no-op: the
call returns the invalid-destination error rather than succeeding. -/
theorem To_nil_beats_empty_sources :
    Sources.To [] none = (some (.plainErr "given struct to fill is nil"), none) := rfl

/-- C7: a duration-typed field coerced from "1h" receives 3600 seconds
(stored in nanoseconds), and from "1" (missing unit) fails with a
conversion error, leaving the prior value intact. -/
theorem duration_coercion_examples (old : GoVal) :
    setValue .tDuration old "1h" [] = .ok (.vInt (3600 * 1000000000)) ∧
    setValue .tDuration old "1" [] =
      .error (.generic "time: missing unit in duration \"1\"", old) :=
  ⟨rfl, rfl⟩

/-- C8: an optional/pointer field whose pointed-to coercion succeeds ends
up holding a freshly allocated non-null value with the coerced result. -/
theorem pointer_fresh_value (elem : GoTy) (old : GoVal) (v0 : String) (rest : List String)
    (x : GoVal) (h : setValue elem (zeroVal elem) v0 rest = .ok x) :
    setValue (.tPtr elem) old v0 rest = .ok (.vPtr (some x)) := by
  rw [setValue, h]

/-- Witness for C8: a pointer-to-string field given "x" points at a fresh
string equal to "x". -/
theorem pointer_fresh_value_witness :
    setValue (.tPtr .tString) (.vPtr none) "x" [] = .ok (.vPtr (some (.vString "x"))) :=
  pointer_fresh_value .tString (.vPtr none) "x" [] (.vString "x") rfl

/-- C3: for every scalar destination kind, when the first raw string does
not parse (including out-of-range numerics) the coercion fails with a
conversion error and the destination keeps exactly its pre-call value. -/
theorem scalar_parse_failure_leaves_old (ty : GoTy) (old : GoVal) (v0 : String)
    (rest : List String) (hs : isScalar ty = true) (hp : scalarParseOk ty v0 = false) :
    ∃ e, setValue ty old v0 rest = .error (e, old) := by
  cases ty <;> simp only [isScalar, Bool.false_eq_true] at hs <;>
    simp only [scalarParseOk] at hp <;>
    obtain ⟨e, he⟩ := Except.exists_error_of_isOk_eq_false hp <;>
    exact ⟨e, by simp [setValue, setInt, setUInt, setBool, setFloat, he]⟩

/-- Witness for C3: the out-of-range numeric "256" on a `uint8` field with
prior value 7. -/
theorem scalar_parse_failure_leaves_old_witness :
    ∃ e, setValue .tUint8 (.vUint 7) "256" [] = .error (e, .vUint 7) :=
  scalar_parse_failure_leaves_old .tUint8 (.vUint 7) "256" [] rfl rfl

/-- C6: round-trip — coercing the base-10 decimal rendering of any integer
representable in the destination field's bit width into a signed
(respectively unsigned, for non-negative values) integer field of that
width succeeds and stores exactly that integer. -/
theorem decimal_roundtrip :
    (∀ (ty : GoTy) (old : GoVal) (w : Nat) (n : Int), signedWidth ty = some w →
      -(2 ^ (w - 1) : Int) ≤ n → n < 2 ^ (w - 1) →
      setValue ty old (intDecimal n) [] = .ok (.vInt n)) ∧
    (∀ (ty : GoTy) (old : GoVal) (w : Nat) (m : Nat), unsignedWidth ty = some w →
      m < 2 ^ w →
      setValue ty old (natDecimal m) [] = .ok (.vUint m)) := by
  constructor
  · intro ty old w n hw hlo hhi
    cases ty <;> simp only [signedWidth, Option.some.injEq] at hw <;>
      (try exact Option.noConfusion hw) <;> subst hw <;>
      simp [setValue, setInt, parseIntGo_intDecimal hlo hhi]
  · intro ty old w m hw hm
    cases ty <;> simp only [unsignedWidth, Option.some.injEq] at hw <;>
      (try exact Option.noConfusion hw) <;> subst hw <;>
      simp [setValue, setUInt, parseUintGo_natDecimal hm]

/-- Witness for C6: `int8` round-trips -5 and `uint16` round-trips 700. -/
theorem decimal_roundtrip_witness :
    setValue .tInt8 (.vInt 0) (intDecimal (-5)) [] = .ok (.vInt (-5)) ∧
    setValue .tUint16 (.vUint 0) (natDecimal 700) [] = .ok (.vUint 700) :=
  ⟨decimal_roundtrip.1 .tInt8 (.vInt 0) 8 (-5) rfl (by decide) (by decide),
   decimal_roundtrip.2 .tUint16 (.vUint 0) 16 700 rfl (by decide)⟩

/-- Counterexample to C2 as stated: a byte-element sequence field supplied
with TWO raw strings still splits only the first string into characters —
the call succeeds with the bytes of "AB", although the claim's "otherwise"
branch would require one element per raw string with the second element
recursively coerced from "CD", which does not coerce to 66 (it is not even
a number). -/
theorem byte_slice_ignores_extra_values :
    setValue (.tSlice .tUint8) (.vSlice []) "AB" ["CD"] =
      .ok (.vSlice [.vUint 65, .vUint 66]) ∧
    setValue .tUint8 (zeroVal .tUint8) "CD" [] ≠ .ok (.vUint 66) := by
  refine ⟨rfl, fun h => ?_⟩
  rw [show setValue .tUint8 (zeroVal .tUint8) "CD" [] =
      .error (.numError "ParseUint" "CD" .malformed, .vUint 0) from rfl] at h
  exact Except.noConfusion h

/-- C2 as amended: for a byte-element sequence the first raw string is
always split into its characters, one byte per character, regardless of
how many raw strings were supplied (extra strings are ignored); for every
other element type the sequence has one element per supplied raw string,
each recursively coerced from its one corresponding string. -/
theorem setSlice_semantics :
    (∀ (old : GoVal) (v0 : String) (rest : List String),
      setValue (.tSlice .tUint8) old v0 rest = .ok (.vSlice (byteElems v0))) ∧
    (∀ (elem : GoTy) (old : GoVal) (v0 : String) (rest : List String) (xs : List GoVal),
      elem ≠ .tUint8 →
      (setValue (.tSlice elem) old v0 rest = .ok (.vSlice xs) ↔
        List.Forall₂ (fun s x => setValue elem (zeroVal elem) s [] = .ok x)
          (v0 :: rest) xs)) := by
  constructor
  · intro old v0 rest
    rw [setValue, setSliceElems_bytes]
    rfl
  · intro elem old v0 rest xs hne
    rw [setValue]
    all_goals try exact hne
    cases hse : setSliceElems (fun v => setValue elem (zeroVal elem) v []) (v0 :: rest) with
    | error e =>
      constructor
      · intro h
        exact Except.noConfusion h
      · intro hf
        have := (setSliceElems_ok_iff elem (v0 :: rest) xs).mpr hf
        rw [hse] at this
        exact Except.noConfusion this
    | ok ys =>
      constructor
      · intro h
        simp only [Except.ok.injEq, GoVal.vSlice.injEq] at h
        subst h
        exact (setSliceElems_ok_iff elem (v0 :: rest) ys).mp hse
      · intro hf
        have := (setSliceElems_ok_iff elem (v0 :: rest) xs).mpr hf
        rw [hse] at this
        simp only [Except.ok.injEq] at this
        rw [this]

/-- Witness for C2 as amended: a string-element sequence gets one element
per raw string. -/
theorem setSlice_semantics_witness :
    setValue (.tSlice .tString) (.vSlice []) "hello" ["world"] =
      .ok (.vSlice [.vString "hello", .vString "world"]) :=
  (setSlice_semantics.2 .tString (.vSlice []) "hello" ["world"]
      [.vString "hello", .vString "world"] (by simp)).mpr
    (.cons rfl (.cons rfl .nil))

/-- Counterexample to C9 as stated: a multi-valued raw bag whose coercion
fails with a numeric parse error yields a structured error whose
rendered value is the failing element "invalid", not the bracket-joined
list "[invalid value]". -/
theorem multi_value_rendering_counterexample :
    Sources.To [⟨"foo", fun _ => (Value ["invalid", "value"], none)⟩]
        (some [⟨[("foo", "bar")], true, .tSlice .tInt, .vSlice [.vInt 1]⟩]) =
      (some (.fieldErr ⟨"bar", "foo", "invalid", .numError "ParseInt" "invalid" .malformed⟩),
       some [⟨[("foo", "bar")], true, .tSlice .tInt, .vSlice [.vInt 1]⟩]) ∧
    "invalid" ≠ "[" ++ String.intercalate " " ["invalid", "value"] ++ "]" :=
  ⟨rfl, by decide⟩

/-- C9 as amended: the structured error's rendered value is the offending
text carried by the underlying error when that error is a numeric-parse,
timestamp-parse, or unsupported-JSON-value error; otherwise it is the
single raw string when exactly one was supplied, the bracket-joined list
when more, and empty when none. -/
theorem newError_value_rendering (field source : String) (values : List String)
    (err : InnerErr) :
    (newError field source values err).Value = renderedValueSpec values err := by
  cases err <;> rcases values with _ | ⟨a, _ | ⟨b, t⟩⟩ <;> rfl

/-- C1: the populate operation returns at most one structured error — the
one produced by the first field/source combination to fail, with fields
processed in declaration order and, within each field, sources in
declaration order; every resolution that succeeded before that failing
combination has already been written into the destination (the updated
prefix `pre'` and the partially filled failing field, which already
carries the writes `fmid` of its earlier sources) and is not rolled
back. -/
theorem To_error_first_failure (sources : Sources) (obj obj' : Obj) (e : HError)
    (h : Sources.To sources (some obj) = (some (.fieldErr e), some obj')) :
    ∃ pre f post pre' f' spre s spost fmid,
      obj = pre ++ f :: post ∧
      sources = spre ++ s :: spost ∧
      fillFields sources pre = .ok pre' ∧
      fillField f spre = .ok fmid ∧
      attempt s fmid = .error (e, f') ∧
      obj' = pre' ++ f' :: post := by
  rw [Sources.To] at h
  by_cases hs : sources.length = 0
  · rw [if_pos hs] at h
    exact absurd h (by simp)
  · rw [if_neg hs] at h
    cases hff : fillFields sources obj with
    | error p =>
      obtain ⟨e1, fs1⟩ := p
      rw [hff] at h
      simp only [Prod.mk.injEq, Option.some.injEq, ToErr.fieldErr.injEq] at h
      obtain ⟨rfl, rfl⟩ := h
      obtain ⟨pre, f, post, pre', f', hsplit, hpre, hfail, hout⟩ :=
        fillFields_error_decomp hff
      obtain ⟨spre, s, spost, fmid, hssplit, hfm, hatt⟩ := fillField_error_decomp hfail
      exact ⟨pre, f, post, pre', f', spre, s, spost, fmid, hsplit, hssplit, hpre, hfm,
        hatt, hout⟩
    | ok fs1 =>
      rw [hff] at h
      exact absurd h (by simp)

/-- Witness for C1: a two-field record where the first field succeeds and
the second fails on its source. -/
theorem To_error_first_failure_witness :
    ∃ pre f post pre' f' spre s spost fmid,
      ([⟨[("q", "a")], true, .tString, .vString ""⟩,
        ⟨[("q", "b")], true, .tInt, .vInt 0⟩] : Obj) = pre ++ f :: post ∧
      ([⟨"q", fun k => (Value (if k = "a" then ["ok"] else ["bad"]), none)⟩] : Sources) =
        spre ++ s :: spost ∧
      fillFields [⟨"q", fun k => (Value (if k = "a" then ["ok"] else ["bad"]), none)⟩] pre =
        .ok pre' ∧
      fillField f spre = .ok fmid ∧
      attempt s fmid =
        .error (⟨"b", "q", "bad", .numError "ParseInt" "bad" .malformed⟩, f') ∧
      ([⟨[("q", "a")], true, .tString, .vString "ok"⟩,
        ⟨[("q", "b")], true, .tInt, .vInt 0⟩] : Obj) = pre' ++ f' :: post :=
  To_error_first_failure
    [⟨"q", fun k => (Value (if k = "a" then ["ok"] else ["bad"]), none)⟩]
    [⟨[("q", "a")], true, .tString, .vString ""⟩, ⟨[("q", "b")], true, .tInt, .vInt 0⟩]
    [⟨[("q", "a")], true, .tString, .vString "ok"⟩, ⟨[("q", "b")], true, .tInt, .vInt 0⟩]
    ⟨"b", "q", "bad", .numError "ParseInt" "bad" .malformed⟩ rfl

end Handgover
